import Mathlib

/-!
Shallow embedding of the rating engine in src/main.py (class
HyakuninisshuRating) of the 5-color hyakunin-isshu rating calculator.

Modelling conventions:
* Python floats are modelled as real numbers.
* A pandas cell that may be missing (NaN) or whose conversion
  (float/int) may raise is modelled as an Option.
* The two parallel dicts player_ratings / player_stats are always created
  and keyed together in the source, so they are modelled as one association
  list from player name to a record of rating, wins and losses; dict
  assignment replaces the first matching key in place and otherwise appends,
  matching insertion-ordered Python dicts.
* str.strip is modelled structurally over the character list (ASCII
  whitespace), so that it evaluates inside the kernel.
-/

/-- Python str.strip: drop leading and trailing whitespace characters. -/
def pyStrip (s : String) : String :=
  String.mk (((s.data.dropWhile Char.isWhitespace).reverse.dropWhile Char.isWhitespace).reverse)

/-- HyakuninisshuRating.calculate_expected_score (src/main.py 33-44):
the Elo expected score 1 / (1 + 10 ^ ((rating_b - rating_a) / 400)). -/
noncomputable def calculate_expected_score (rating_a rating_b : ℝ) : ℝ :=
  1 / (1 + (10 : ℝ) ^ ((rating_b - rating_a) / 400))

/-- HyakuninisshuRating.calculate_performance_score (src/main.py 46-83).
The instance attribute self.card_weight is passed explicitly. -/
noncomputable def calculate_performance_score (card_weight : ℝ) (result : String)
    (cards_won cards_lost : ℕ) : ℝ :=
  let base_score : ℝ :=
    if result = "勝利" ∨ result = "勝" ∨ result = "〇" then 1.0
    else if result = "敗北" ∨ result = "負" ∨ result = "✕" then 0.0
    else 0.5
  let total_cards : ℕ := cards_won + cards_lost
  let card_ratio : ℝ :=
    if total_cards > 0 then (cards_won : ℝ) / (total_cards : ℝ) else 0.5
  if cards_won = cards_lost then base_score
  else max 0.0 (min 1.0 ((1 - card_weight) * base_score + card_weight * card_ratio))

/-- The base score exactly as the spec words it (section 4.2): 1.0 for a
recognized win token, 0.0 for a recognized loss token, 0.5 otherwise. -/
noncomputable def baseScoreSpec (result : String) : ℝ :=
  if result = "勝利" ∨ result = "勝" ∨ result = "〇" then 1.0
  else if result = "敗北" ∨ result = "負" ∨ result = "✕" then 0.0
  else 0.5

/-- One player's persistent record: current rating plus the win/loss counters
(the source keeps these in the two parallel dicts player_ratings and
player_stats, always created and updated for the same keys). -/
structure PlayerState where
  rating : ℝ
  wins : ℕ
  losses : ℕ

/-- The rating store: an insertion-ordered association list, modelling the
Python dict from player name to rating/stats. -/
abbrev Store := List (String × PlayerState)

/-- Dict lookup: first entry with the given key. -/
def findEntry : Store → String → Option PlayerState
  | [], _ => none
  | (k, v) :: t, p => if k = p then some v else findEntry t p

/-- Dict assignment: replace the first entry with the given key in place,
append at the end when the key is absent. -/
def setEntry : Store → String → PlayerState → Store
  | [], p, v => [(p, v)]
  | (k, w) :: t, p, v => if k = p then (p, v) :: t else (k, w) :: setEntry t p v

/-- Lines 101-106 of src/main.py: on first appearance a player is created at
the configured initial rating with zero wins and losses. -/
def ensureEntry (s : Store) (p : String) (init : ℝ) : Store :=
  if (findEntry s p).isSome then s else setEntry s p ⟨init, 0, 0⟩

/-- Current rating of a player (the player is always present where this is
used; the default is never read). -/
def storedRating (s : Store) (p : String) : ℝ :=
  ((findEntry s p).getD ⟨0, 0, 0⟩).rating

/-- Assignment self.player_ratings[p] = r: only the rating component changes
(stats live in a separate dict in the source). -/
def setRating (s : Store) (p : String) (r : ℝ) : Store :=
  match findEntry s p with
  | some e => setEntry s p ⟨r, e.wins, e.losses⟩
  | none => setEntry s p ⟨r, 0, 0⟩

/-- self.player_stats[p][wins] += 1 (the key is always present where this
is used; on an absent key the source would raise, which is unreachable). -/
def bumpWins (s : Store) (p : String) : Store :=
  match findEntry s p with
  | some e => setEntry s p ⟨e.rating, e.wins + 1, e.losses⟩
  | none => s

/-- self.player_stats[p][losses] += 1. -/
def bumpLosses (s : Store) (p : String) : Store :=
  match findEntry s p with
  | some e => setEntry s p ⟨e.rating, e.wins, e.losses + 1⟩
  | none => s

/-- One record of self.match_history (src/main.py 137-151). -/
structure HistoryEntry where
  player_a : String
  player_b : String
  result_a : String
  cards_a : ℕ
  cards_b : ℕ
  actual_score_a : ℝ
  expected_score_a : ℝ
  rating_a_before : ℝ
  rating_b_before : ℝ
  rating_a_after : ℝ
  rating_b_after : ℝ
  rating_change_a : ℝ
  rating_change_b : ℝ

/-- The mutable state of a HyakuninisshuRating instance together with its
configuration (src/main.py 17-31). -/
structure RatingSystem where
  initial_rating : ℝ
  k_factor : ℝ
  card_weight : ℝ
  player_ratings : Store
  match_history : List HistoryEntry

/-- HyakuninisshuRating.__init__: fresh system with an empty store. -/
noncomputable def initSystem (initial_rating k_factor card_weight : ℝ) : RatingSystem :=
  ⟨initial_rating, k_factor, card_weight, [], []⟩

/-- HyakuninisshuRating.update_ratings (src/main.py 85-153): lazy player
creation, Elo update with the performance score, win/loss bookkeeping and
the history append; returns the new rating pair. -/
noncomputable def RatingSystem.update_ratings (sys : RatingSystem)
    (player_a player_b result_a : String) (cards_a cards_b : ℕ) :
    RatingSystem × ℝ × ℝ :=
  let s0 := ensureEntry sys.player_ratings player_a sys.initial_rating
  let s1 := ensureEntry s0 player_b sys.initial_rating
  let rating_a := storedRating s1 player_a
  let rating_b := storedRating s1 player_b
  let expected_a := calculate_expected_score rating_a rating_b
  let expected_b := 1 - expected_a
  let actual_score_a := calculate_performance_score sys.card_weight result_a cards_a cards_b
  let actual_score_b := 1 - actual_score_a
  let new_rating_a := rating_a + sys.k_factor * (actual_score_a - expected_a)
  let new_rating_b := rating_b + sys.k_factor * (actual_score_b - expected_b)
  let s2 := setRating s1 player_a new_rating_a
  let s3 := setRating s2 player_b new_rating_b
  let s4 :=
    if result_a = "勝" ∨ result_a = "勝利" ∨ result_a = "〇" then
      bumpLosses (bumpWins s3 player_a) player_b
    else if result_a = "負" ∨ result_a = "敗北" ∨ result_a = "✕" then
      bumpWins (bumpLosses s3 player_a) player_b
    else s3
  let entry : HistoryEntry :=
    ⟨player_a, player_b, result_a, cards_a, cards_b, actual_score_a, expected_a,
     rating_a, rating_b, new_rating_a, new_rating_b,
     new_rating_a - rating_a, new_rating_b - rating_b⟩
  ({ sys with player_ratings := s4, match_history := sys.match_history ++ [entry] },
   new_rating_a, new_rating_b)

/-- Sum of all ratings currently in the store. -/
noncomputable def ratingSum (s : Store) : ℝ := (s.map (fun e => e.2.rating)).sum

/-- The store after the lazy-creation step for both players of one update. -/
noncomputable def ensured (sys : RatingSystem) (pa pb : String) : Store :=
  ensureEntry (ensureEntry sys.player_ratings pa sys.initial_rating) pb sys.initial_rating

/-- A concrete two-player system used as witness input: both players already
present at rating 1500. -/
noncomputable def twoPlayerSystem : RatingSystem :=
  ⟨1500, 32, 0.3, [(("A"), ⟨1500, 0, 0⟩), (("B"), ⟨1500, 0, 0⟩)], []⟩

/-- A concrete system with two pre-existing players carrying nonzero win/loss
counters, used as the C10 counterexample input. -/
noncomputable def statSystem : RatingSystem :=
  ⟨1500, 32, 0.3, [(("A"), ⟨1500, 2, 3⟩), (("B"), ⟨1500, 1, 1⟩)], []⟩

/-- One raw row of the match sheet (columns 試合番号, 名前, 相手, 結果,
獲得札数); a cell that is missing (NaN) is none. -/
structure MatchRow where
  match_num : ℕ
  name : Option String
  opponent : Option String
  result : Option String
  cards : Option ℕ

/-- A row that survived dropna, with both names stripped (src/main.py 213-217). -/
structure CleanRow where
  match_num : ℕ
  name : String
  opponent : String
  result : String
  cards : ℕ
  deriving DecidableEq

/-- dropna on 名前/相手/結果/獲得札数 followed by str.strip on 名前 and 相手. -/
def cleanRows (rows : List MatchRow) : List CleanRow :=
  rows.filterMap (fun r =>
    match r.name, r.opponent, r.result, r.cards with
    | some n, some o, some res, some c =>
        some ⟨r.match_num, pyStrip n, pyStrip o, res, c⟩
    | _, _, _, _ => none)

/-- win_results (src/main.py 260). -/
def win_results : List String := [("勝"), ("勝利"), ("〇")]

/-- lose_results (src/main.py 261). -/
def lose_results : List String := [("負"), ("敗北"), ("✕")]

/-- The result-consistency test of src/main.py 262: true exactly when the pair
is skipped as contradictory. -/
def resultContradiction (result opponent_result : String) : Bool :=
  (win_results.contains result && !(lose_results.contains opponent_result))
    || (lose_results.contains result && !(win_results.contains opponent_result))

/-- Lexicographic code-point comparison on character lists: the order Python
uses to sort the name pair (written structurally so it reduces in the kernel). -/
def charListLt : List Char → List Char → Bool
  | [], [] => false
  | [], _ :: _ => true
  | _ :: _, [] => false
  | c :: cs, d :: ds =>
    if Nat.blt c.toNat d.toNat then true
    else if Nat.blt d.toNat c.toNat then false
    else charListLt cs ds

/-- Python string comparison a < b by code points. -/
def strLt (a b : String) : Bool := charListLt a.data b.data

/-- Canonical pair key: match number with the sorted name pair (src/main.py 237-238). -/
abbrev PairKey := ℕ × String × String

def pairKey (row : CleanRow) : PairKey :=
  if strLt row.opponent row.name then (row.match_num, row.opponent, row.name)
  else (row.match_num, row.name, row.opponent)

/-- The body of the row loop of process_matches (src/main.py 230-271): dedup
check, opponent lookup, opponent-mismatch check, result-contradiction check,
and finally the rating update with the pair key recorded. -/
noncomputable def stepRow (st : RatingSystem × List PairKey) (group : List CleanRow)
    (row : CleanRow) : RatingSystem × List PairKey :=
  if pairKey row ∈ st.2 then st
  else
    match group.find? (fun r => r.name == row.opponent) with
    | none => st
    | some opponent_row =>
      if opponent_row.opponent ≠ row.name then st
      else if resultContradiction row.result opponent_row.result then st
      else
        ((st.1.update_ratings row.name row.opponent row.result row.cards opponent_row.cards).1,
         st.2 ++ [pairKey row])

/-- Insert a match number into an ascending duplicate-free list. -/
def insertSortedNoDup (n : ℕ) : List ℕ → List ℕ
  | [] => [n]
  | m :: ms =>
    if n = m then m :: ms
    else if n < m then n :: m :: ms
    else m :: insertSortedNoDup n ms

/-- The keys of pandas groupby: the distinct match numbers in ascending order. -/
def sortedMatchNums (rows : List CleanRow) : List ℕ :=
  rows.foldl (fun acc r => insertSortedNoDup r.match_num acc) []

/-- HyakuninisshuRating.process_matches (src/main.py 204-271); also returns the
set of processed pair keys in insertion order (one entry per applied update). -/
noncomputable def RatingSystem.process_matches (sys : RatingSystem) (rows : List MatchRow) :
    RatingSystem × List PairKey :=
  let cleaned := cleanRows rows
  if cleaned.isEmpty then (sys, [])
  else
    (sortedMatchNums cleaned).foldl
      (fun st m =>
        let group := cleaned.filter (fun r => r.match_num == m)
        group.foldl (fun st2 row => stepRow st2 group row) st)
      (sys, [])

/-- Concrete dataset for C7: one match, one row per participant, plus a
literal duplicate of the first row. -/
def dupRows : List MatchRow :=
  [⟨1, some ("A"), some ("B"), some ("勝"), some 17⟩,
   ⟨1, some ("B"), some ("A"), some ("負"), some 0⟩,
   ⟨1, some ("A"), some ("B"), some ("勝"), some 17⟩]

/-- Concrete dataset for the C8 witness (spec scenario 3): P declares opponent
O, but O's row declares a different opponent Q. -/
def mismatchRows : List MatchRow :=
  [⟨1, some ("P"), some ("O"), some ("勝"), some 17⟩,
   ⟨1, some ("O"), some ("Q"), some ("負"), some 3⟩]

/-- Rows used as the C2 witness input: a contradictory pair in which both
mutually-declared participants claim a win. -/
def contraGroup : List CleanRow :=
  [⟨1, ("A"), ("B"), ("勝"), 17⟩, ⟨1, ("B"), ("A"), ("勝"), 15⟩]

/-- Dataset refuting C2 as stated: player A's result is an unrecognized token
(not classifiable as win or loss), so the two results are not logical
complements, while B declares a recognized win. -/
def nonComplementRows : List MatchRow :=
  [⟨1, some ("A"), some ("B"), some ("分"), some 5⟩,
   ⟨1, some ("B"), some ("A"), some ("勝"), some 15⟩]

/-- One row of the checkpoint sheet レーティング (src/main.py 189-193):
str() on the player cell never raises, so the name is always a string; a
rating/wins/losses cell whose float()/int() conversion raises is none. -/
structure CheckpointRow where
  player : String
  rating : Option ℝ
  wins : Option ℕ
  losses : Option ℕ

/-- Whether every conversion of the row succeeds (no exception raised). -/
def rowOk (r : CheckpointRow) : Bool :=
  r.rating.isSome && r.wins.isSome && r.losses.isSome

/-- The successful per-row effect of the checkpoint loop (src/main.py 190-196),
written on the already-converted values: assign rating and stats for the
stripped player name. -/
noncomputable def applyCheckpointRow (s : RatingSystem) (r : CheckpointRow) : RatingSystem :=
  { s with
    player_ratings :=
      setEntry s.player_ratings (pyStrip r.player)
        (PlayerState.mk (r.rating.getD 0) (r.wins.getD 0) (r.losses.getD 0)) }

/-- HyakuninisshuRating.load_previous_ratings (src/main.py 177-202): rows are
applied one by one, mutating the store as they go; the first row whose
rating/wins/losses cannot be converted raises, the exception is caught at the
try/except around the whole loop, an error message is printed, and the method
returns with the store as mutated so far. The Bool records whether every row
converted (false = the exception path was taken and logged). -/
noncomputable def RatingSystem.load_previous_ratings :
    RatingSystem → List CheckpointRow → RatingSystem × Bool
  | sys, [] => (sys, true)
  | sys, r :: rs =>
    match r.rating, r.wins, r.losses with
    | some rating, some wins, some losses =>
      RatingSystem.load_previous_ratings
        { sys with player_ratings :=
            setEntry sys.player_ratings (pyStrip r.player) ⟨rating, wins, losses⟩ } rs
    | _, _, _ => (sys, false)

/-- A well-formed checkpoint row for player X. -/
noncomputable def goodRowX : CheckpointRow := ⟨("X"), some 1600, some 3, some 1⟩

/-- A malformed checkpoint row: the rating cell does not convert. -/
noncomputable def badRowY : CheckpointRow := ⟨("Y"), none, some 0, some 0⟩

/-- C4: the expected-score function returns 1 / (1 + 10 ^ ((ratingB - ratingA)/400));
for all ratings a and b, expected(a,b) + expected(b,a) = 1, and expected(a,a) = 0.5. -/
theorem C4_expected_score_props (a b : ℝ) :
    calculate_expected_score a b = 1 / (1 + (10 : ℝ) ^ ((b - a) / 400)) ∧
    calculate_expected_score a b + calculate_expected_score b a = 1 ∧
    calculate_expected_score a a = 0.5 := by
  refine ⟨rfl, ?_, ?_⟩
  · have hx : (a - b) / 400 = -((b - a) / 400) := by ring
    have hpos : (0 : ℝ) < (10 : ℝ) ^ ((b - a) / 400) :=
      Real.rpow_pos_of_pos (by norm_num) _
    unfold calculate_expected_score
    rw [hx, Real.rpow_neg (by norm_num : (0:ℝ) ≤ 10)]
    have h1 : (1 : ℝ) + (10 : ℝ) ^ ((b - a) / 400) ≠ 0 := by positivity
    have h2 : (10 : ℝ) ^ ((b - a) / 400) ≠ 0 := ne_of_gt hpos
    field_simp
    ring
  · unfold calculate_expected_score
    norm_num

/-- C5: whenever cards_won = cards_lost the performance score equals the base
score exactly, for every card count n and every weight w: 1.0 for each of the
three win tokens and 0.0 for each of the three loss tokens. -/
theorem C5_equal_capture_base_score (n : ℕ) (w : ℝ) :
    calculate_performance_score w ("勝") n n = 1.0 ∧
    calculate_performance_score w ("勝利") n n = 1.0 ∧
    calculate_performance_score w ("〇") n n = 1.0 ∧
    calculate_performance_score w ("負") n n = 0.0 ∧
    calculate_performance_score w ("敗北") n n = 0.0 ∧
    calculate_performance_score w ("✕") n n = 0.0 := by
  refine ⟨?_, ?_, ?_, ?_, ?_, ?_⟩ <;>
    simp [calculate_performance_score]

/-- C6: for cards_won ≠ cards_lost the performance score is the clamped
weighted blend (1-w)*base + w*cardsWon/(cardsWon+cardsLost), with base given
by the recognized token sets; and the score always lies in [0,1]. -/
theorem C6_performance_formula_and_range (w : ℝ) (result : String)
    (cards_won cards_lost : ℕ) :
    (cards_won ≠ cards_lost →
      calculate_performance_score w result cards_won cards_lost =
        max 0.0 (min 1.0 ((1 - w) * baseScoreSpec result
          + w * ((cards_won : ℝ) / ((cards_won : ℝ) + (cards_lost : ℝ)))))) ∧
    0 ≤ calculate_performance_score w result cards_won cards_lost ∧
    calculate_performance_score w result cards_won cards_lost ≤ 1 := by
  constructor
  · intro hne
    have htot : 0 < cards_won + cards_lost := by omega
    unfold calculate_performance_score baseScoreSpec
    simp only [gt_iff_lt, htot, if_true, hne, if_false]
    push_cast
    ring_nf
  · unfold calculate_performance_score
    by_cases heq : cards_won = cards_lost
    · simp only [heq, if_true]
      split_ifs <;> norm_num
    · simp only [heq, if_false]
      refine ⟨?_, max_le (by norm_num) ((min_le_left _ _).trans (by norm_num))⟩
      exact le_trans (by norm_num : (0:ℝ) ≤ 0.0) (le_max_left _ _)

/-- Witness for C6 at a concrete input: player A wins 17-0 with weight 0.3. -/
theorem C6_performance_formula_and_range_witness :
    calculate_performance_score 0.3 ("勝") 17 0 =
      max 0.0 (min 1.0 ((1 - 0.3) * baseScoreSpec ("勝")
        + 0.3 * (((17 : ℕ) : ℝ) / (((17 : ℕ) : ℝ) + ((0 : ℕ) : ℝ))))) :=
  (C6_performance_formula_and_range 0.3 ("勝") 17 0).1 (by decide)

lemma findEntry_setEntry_self (s : Store) (p : String) (v : PlayerState) :
    findEntry (setEntry s p v) p = some v := by
  induction s with
  | nil => simp [setEntry, findEntry]
  | cons hd t ih =>
    obtain ⟨k, w⟩ := hd
    by_cases hk : k = p
    · simp [setEntry, findEntry, hk]
    · simp [setEntry, findEntry, hk, ih]

lemma findEntry_setEntry_ne (s : Store) (p q : String) (v : PlayerState)
    (h : q ≠ p) : findEntry (setEntry s p v) q = findEntry s q := by
  induction s with
  | nil => simp [setEntry, findEntry, Ne.symm h]
  | cons hd t ih =>
    obtain ⟨k, w⟩ := hd
    by_cases hk : k = p
    · subst hk
      simp [setEntry, findEntry, Ne.symm h]
    · simp only [setEntry, findEntry, if_neg hk]
      by_cases hkq : k = q
      · simp [hkq]
      · simp [hkq, ih]

lemma ratingSum_setEntry (s : Store) (p : String) (v e : PlayerState)
    (h : findEntry s p = some e) :
    ratingSum (setEntry s p v) = ratingSum s - e.rating + v.rating := by
  induction s with
  | nil => simp [findEntry] at h
  | cons hd t ih =>
    obtain ⟨k, w⟩ := hd
    by_cases hk : k = p
    · simp only [findEntry, if_pos hk] at h
      obtain rfl : w = e := by injection h
      simp [setEntry, hk, ratingSum]
      ring
    · simp only [findEntry, if_neg hk] at h
      simp only [setEntry, if_neg hk]
      simp only [ratingSum, List.map_cons, List.sum_cons] at ih ⊢
      rw [ih h]
      ring

lemma findEntry_ensureEntry_self (s : Store) (p : String) (i : ℝ) :
    ∃ e, findEntry (ensureEntry s p i) p = some e := by
  unfold ensureEntry
  cases h : findEntry s p with
  | none => exact ⟨⟨i, 0, 0⟩, by simp [h, findEntry_setEntry_self]⟩
  | some e => exact ⟨e, by simp [h]⟩

lemma findEntry_ensureEntry_other (s : Store) (p q : String) (i : ℝ)
    (e : PlayerState) (h : findEntry s q = some e) :
    findEntry (ensureEntry s p i) q = some e := by
  unfold ensureEntry
  split
  · exact h
  · by_cases hpq : q = p
    · subst hpq
      simp_all
    · rw [findEntry_setEntry_ne s p q _ hpq]
      exact h

lemma update_ratings_snd (sys : RatingSystem) (pa pb res : String) (ca cb : ℕ) :
    (sys.update_ratings pa pb res ca cb).2 =
      (storedRating (ensured sys pa pb) pa
         + sys.k_factor * (calculate_performance_score sys.card_weight res ca cb
             - calculate_expected_score (storedRating (ensured sys pa pb) pa)
                 (storedRating (ensured sys pa pb) pb)),
       storedRating (ensured sys pa pb) pb
         + sys.k_factor * ((1 - calculate_performance_score sys.card_weight res ca cb)
             - (1 - calculate_expected_score (storedRating (ensured sys pa pb) pa)
                 (storedRating (ensured sys pa pb) pb)))) := rfl

lemma update_ratings_store (sys : RatingSystem) (pa pb res : String) (ca cb : ℕ) :
    (sys.update_ratings pa pb res ca cb).1.player_ratings =
      (let s1 := ensured sys pa pb
       let expected_a := calculate_expected_score (storedRating s1 pa) (storedRating s1 pb)
       let actual_a := calculate_performance_score sys.card_weight res ca cb
       let new_a := storedRating s1 pa + sys.k_factor * (actual_a - expected_a)
       let new_b := storedRating s1 pb + sys.k_factor * ((1 - actual_a) - (1 - expected_a))
       let s3 := setRating (setRating s1 pa new_a) pb new_b
       if res = "勝" ∨ res = "勝利" ∨ res = "〇" then bumpLosses (bumpWins s3 pa) pb
       else if res = "負" ∨ res = "敗北" ∨ res = "✕" then bumpWins (bumpLosses s3 pa) pb
       else s3) := rfl

lemma expected_score_self (r : ℝ) : calculate_expected_score r r = 0.5 := by
  unfold calculate_expected_score
  norm_num

lemma performance_win_17_0 (w : ℝ) : calculate_performance_score w ("勝") 17 0 = 1 := by
  unfold calculate_performance_score
  norm_num

lemma performance_win_10_10 (w : ℝ) : calculate_performance_score w ("勝") 10 10 = 1 := by
  unfold calculate_performance_score
  norm_num

/-- C3: each update sets the new ratings to rating + kFactor * (actual - expected)
from the currently stored ratings; concretely, from 1500/1500 with k=32 and
weight 0.3, a 17-0 win for A returns (1516, 1484), and an equal-capture 10-10
tiebreak win for A returns the identical (1516, 1484). -/
theorem C3_update_formula_and_scenarios :
    (∀ (sys : RatingSystem) (pa pb res : String) (ca cb : ℕ),
      (sys.update_ratings pa pb res ca cb).2 =
        (storedRating (ensured sys pa pb) pa
           + sys.k_factor * (calculate_performance_score sys.card_weight res ca cb
               - calculate_expected_score (storedRating (ensured sys pa pb) pa)
                   (storedRating (ensured sys pa pb) pb)),
         storedRating (ensured sys pa pb) pb
           + sys.k_factor * ((1 - calculate_performance_score sys.card_weight res ca cb)
               - (1 - calculate_expected_score (storedRating (ensured sys pa pb) pa)
                   (storedRating (ensured sys pa pb) pb))))) ∧
    ((initSystem 1500 32 0.3).update_ratings ("A") ("B") ("勝") 17 0).2 = (1516, 1484) ∧
    ((initSystem 1500 32 0.3).update_ratings ("A") ("B") ("勝") 10 10).2 = (1516, 1484) := by
  have hs : ensured (initSystem 1500 32 0.3) ("A") ("B")
      = [(("A"), ⟨1500, 0, 0⟩), (("B"), ⟨1500, 0, 0⟩)] := by
    simp [ensured, ensureEntry, findEntry, setEntry, initSystem]
  refine ⟨fun sys pa pb res ca cb => update_ratings_snd sys pa pb res ca cb, ?_, ?_⟩
  · rw [update_ratings_snd, hs]
    simp only [initSystem, storedRating, findEntry]
    norm_num [performance_win_17_0, expected_score_self]
  · rw [update_ratings_snd, hs]
    simp only [initSystem, storedRating, findEntry]
    norm_num [performance_win_10_10, expected_score_self]

lemma ratingSum_setRating (s : Store) (p : String) (r : ℝ) (e : PlayerState)
    (h : findEntry s p = some e) :
    ratingSum (setRating s p r) = ratingSum s - e.rating + r := by
  unfold setRating
  rw [h]
  exact ratingSum_setEntry s p _ e h

lemma findEntry_setRating_ne (s : Store) (p q : String) (r : ℝ) (h : q ≠ p) :
    findEntry (setRating s p r) q = findEntry s q := by
  unfold setRating
  cases findEntry s p <;> exact findEntry_setEntry_ne _ _ _ _ h

lemma ratingSum_bumpWins (s : Store) (p : String) :
    ratingSum (bumpWins s p) = ratingSum s := by
  unfold bumpWins
  cases h : findEntry s p with
  | none => rfl
  | some e =>
    rw [ratingSum_setEntry s p _ e h]
    simp

lemma ratingSum_bumpLosses (s : Store) (p : String) :
    ratingSum (bumpLosses s p) = ratingSum s := by
  unfold bumpLosses
  cases h : findEntry s p with
  | none => rfl
  | some e =>
    rw [ratingSum_setEntry s p _ e h]
    simp

lemma storedRating_of_findEntry (s : Store) (p : String) (e : PlayerState)
    (h : findEntry s p = some e) : storedRating s p = e.rating := by
  simp [storedRating, h]

lemma exists_findEntry_ensured_left (sys : RatingSystem) (pa pb : String) :
    ∃ e, findEntry (ensured sys pa pb) pa = some e := by
  obtain ⟨e0, h0⟩ := findEntry_ensureEntry_self sys.player_ratings pa sys.initial_rating
  exact ⟨e0, findEntry_ensureEntry_other _ pb pa _ e0 h0⟩

lemma exists_findEntry_ensured_right (sys : RatingSystem) (pa pb : String) :
    ∃ e, findEntry (ensured sys pa pb) pb = some e :=
  findEntry_ensureEntry_self (ensureEntry sys.player_ratings pa sys.initial_rating)
    pb sys.initial_rating

/-- C9: every rating update between two distinct players is zero-sum: the two
returned rating changes (relative to the post-creation stored ratings) are
exact negatives of each other, and the sum of all ratings in the store is the
same after the update as it was once both players exist in the store. -/
theorem C9_zero_sum_update (sys : RatingSystem) (pa pb res : String) (ca cb : ℕ)
    (hne : pa ≠ pb) :
    ((sys.update_ratings pa pb res ca cb).2.1 - storedRating (ensured sys pa pb) pa)
      = -((sys.update_ratings pa pb res ca cb).2.2 - storedRating (ensured sys pa pb) pb) ∧
    ratingSum (sys.update_ratings pa pb res ca cb).1.player_ratings
      = ratingSum (ensured sys pa pb) := by
  obtain ⟨ea, hea⟩ := exists_findEntry_ensured_left sys pa pb
  obtain ⟨eb, heb⟩ := exists_findEntry_ensured_right sys pa pb
  constructor
  · rw [update_ratings_snd]
    ring
  · rw [update_ratings_store]
    have hb2 : findEntry (setRating (ensured sys pa pb) pa
        (storedRating (ensured sys pa pb) pa
          + sys.k_factor * (calculate_performance_score sys.card_weight res ca cb
            - calculate_expected_score (storedRating (ensured sys pa pb) pa)
                (storedRating (ensured sys pa pb) pb)))) pb = some eb := by
      rw [findEntry_setRating_ne _ _ _ _ (Ne.symm hne)]
      exact heb
    have hra := storedRating_of_findEntry _ _ _ hea
    have hrb := storedRating_of_findEntry _ _ _ heb
    split_ifs <;>
      simp only [ratingSum_bumpWins, ratingSum_bumpLosses] <;>
      rw [ratingSum_setRating _ _ _ _ hb2, ratingSum_setRating _ _ _ _ hea, hra, hrb] <;>
      ring

/-- Witness for C9 at a concrete input: distinct players A and B. -/
theorem C9_zero_sum_update_witness :
    (("A") : String) ≠ ("B") ∧
    ratingSum ((twoPlayerSystem.update_ratings ("A") ("B") ("勝") 17 0).1.player_ratings)
      = ratingSum (ensured twoPlayerSystem ("A") ("B")) :=
  ⟨by decide,
   (C9_zero_sum_update twoPlayerSystem ("A") ("B") ("勝") 17 0 (by decide)).2⟩

lemma performance_neutral_equal (w : ℝ) (n : ℕ) :
    calculate_performance_score w ("分") n n = 0.5 := by
  have h1 : ¬(("分" : String) = "勝利" ∨ ("分" : String) = "勝" ∨ ("分" : String) = "〇") := by
    decide
  have h2 : ¬(("分" : String) = "敗北" ∨ ("分" : String) = "負" ∨ ("分" : String) = "✕") := by
    decide
  unfold calculate_performance_score
  rw [if_neg h1, if_neg h2, if_pos (rfl : n = n)]

lemma findEntry_setRating_statsMap (s : Store) (p q : String) (r : ℝ) (e : PlayerState)
    (h : findEntry s p = some e) :
    (findEntry (setRating s p r) q).map (fun x => (x.wins, x.losses))
      = (findEntry s q).map (fun x => (x.wins, x.losses)) := by
  unfold setRating
  rw [h]
  by_cases hq : q = p
  · subst hq
    rw [findEntry_setEntry_self, h]
    rfl
  · rw [findEntry_setEntry_ne _ _ _ _ hq]

lemma findEntry_setRating_self_isSome (s : Store) (p : String) (r : ℝ) (e : PlayerState)
    (h : findEntry s p = some e) :
    findEntry (setRating s p r) p = some ⟨r, e.wins, e.losses⟩ := by
  unfold setRating
  rw [h, findEntry_setEntry_self]

lemma statsMap_setRating2 (s : Store) (pa pb p : String) (ra rb : ℝ)
    (ea eb : PlayerState) (hea : findEntry s pa = some ea)
    (heb : findEntry s pb = some eb) :
    (findEntry (setRating (setRating s pa ra) pb rb) p).map (fun x => (x.wins, x.losses))
      = (findEntry s p).map (fun x => (x.wins, x.losses)) := by
  have h2 : ∃ e2, findEntry (setRating s pa ra) pb = some e2 := by
    by_cases hba : pb = pa
    · subst hba
      exact ⟨_, findEntry_setRating_self_isSome s pb ra ea hea⟩
    · rw [findEntry_setRating_ne _ _ _ _ hba]
      exact ⟨eb, heb⟩
  obtain ⟨e2, he2⟩ := h2
  rw [findEntry_setRating_statsMap _ _ _ _ _ he2, findEntry_setRating_statsMap _ _ _ _ _ hea]

/-- C10 counterexample: for the unrecognized result token at equal ratings and
equal card counts, update_ratings leaves the whole store — including both
players' ratings — exactly as it was, so the claim that it still changes both
players' ratings is false at this input. -/
theorem C10_counterexample :
    (statSystem.update_ratings ("A") ("B") ("分") 10 10).1.player_ratings
      = statSystem.player_ratings := by
  rw [update_ratings_store]
  simp [statSystem, ensured, ensureEntry, findEntry, setEntry, setRating, storedRating,
    performance_neutral_equal, expected_score_self]

/-- C10 amended: if result_a is not one of the six recognized tokens,
update_ratings still applies the rating formula with the neutral 0.5 base
score (so ratings change exactly when the performance score differs from the
expected score), but the win and loss counters of every player are exactly
those of the post-creation store, so wins+losses undercounts applied matches. -/
theorem C10_neutral_token_frame (sys : RatingSystem) (pa pb res : String) (ca cb : ℕ)
    (hw : ¬(res = "勝" ∨ res = "勝利" ∨ res = "〇"))
    (hl : ¬(res = "負" ∨ res = "敗北" ∨ res = "✕")) :
    (∀ p, ((findEntry (sys.update_ratings pa pb res ca cb).1.player_ratings p).map
          (fun x => (x.wins, x.losses)))
        = ((findEntry (ensured sys pa pb) p).map (fun x => (x.wins, x.losses)))) ∧
    baseScoreSpec res = 0.5 ∧
    (ca = cb → calculate_performance_score sys.card_weight res ca cb = 0.5) := by
  have h1 : ¬(res = "勝利" ∨ res = "勝" ∨ res = "〇") := by tauto
  have h2 : ¬(res = "敗北" ∨ res = "負" ∨ res = "✕") := by tauto
  obtain ⟨ea, hea⟩ := exists_findEntry_ensured_left sys pa pb
  obtain ⟨eb, heb⟩ := exists_findEntry_ensured_right sys pa pb
  refine ⟨?_, ?_, ?_⟩
  · intro p
    rw [update_ratings_store, if_neg hw, if_neg hl]
    exact statsMap_setRating2 _ pa pb p _ _ ea eb hea heb
  · unfold baseScoreSpec
    rw [if_neg h1, if_neg h2]
  · intro hcc
    subst hcc
    unfold calculate_performance_score
    simp [h1, h2]

/-- Witness for C10 at a concrete input: the unrecognized token with players
A and B of statSystem, both hypotheses discharged by computation. -/
theorem C10_neutral_token_frame_witness :
    baseScoreSpec ("分") = 0.5 :=
  (C10_neutral_token_frame statSystem ("A") ("B") ("分") 17 0
    (by decide) (by decide)).2.1

lemma stepRow_snd_cases (st : RatingSystem × List PairKey) (group : List CleanRow)
    (row : CleanRow) :
    stepRow st group row = st ∨
    (pairKey row ∉ st.2 ∧ (stepRow st group row).2 = st.2 ++ [pairKey row]) := by
  unfold stepRow
  by_cases hmem : pairKey row ∈ st.2
  · left
    rw [if_pos hmem]
  · rw [if_neg hmem]
    split
    · exact Or.inl rfl
    · split_ifs
      · exact Or.inl rfl
      · exact Or.inl rfl
      · exact Or.inr ⟨hmem, rfl⟩

lemma stepRow_nodup (st : RatingSystem × List PairKey) (group : List CleanRow)
    (row : CleanRow) (h : st.2.Nodup) : (stepRow st group row).2.Nodup := by
  rcases stepRow_snd_cases st group row with heq | ⟨hmem, heq⟩
  · rw [heq]
    exact h
  · rw [heq, List.nodup_append]
    refine ⟨h, List.nodup_singleton _, ?_⟩
    intro a ha hb
    rw [List.mem_singleton] at hb
    subst hb
    exact hmem ha

lemma stepRow_length_le (st : RatingSystem × List PairKey) (group : List CleanRow)
    (row : CleanRow) : st.2.length ≤ (stepRow st group row).2.length := by
  rcases stepRow_snd_cases st group row with heq | ⟨_, heq⟩
  · rw [heq]
  · rw [heq]
    simp

lemma stepRow_eq_of_length (st : RatingSystem × List PairKey) (group : List CleanRow)
    (row : CleanRow) (h : (stepRow st group row).2.length = st.2.length) :
    stepRow st group row = st := by
  rcases stepRow_snd_cases st group row with heq | ⟨_, heq⟩
  · exact heq
  · rw [heq] at h
    simp at h

lemma foldl_preserve {α β : Type} (P : β → Prop) (f : β → α → β)
    (hf : ∀ b a, P b → P (f b a)) :
    ∀ (l : List α) (b : β), P b → P (l.foldl f b)
  | [], _, hb => hb
  | a :: t, b, hb => foldl_preserve P f hf t (f b a) (hf b a hb)

lemma foldl_measure_le {α β : Type} (μ : β → ℕ) (f : β → α → β)
    (hf : ∀ b a, μ b ≤ μ (f b a)) :
    ∀ (l : List α) (b : β), μ b ≤ μ (l.foldl f b)
  | [], _ => le_refl _
  | a :: t, b => le_trans (hf b a) (foldl_measure_le μ f hf t (f b a))

lemma foldl_eq_of_measure {α β : Type} (μ : β → ℕ) (f : β → α → β)
    (hle : ∀ b a, μ b ≤ μ (f b a))
    (heq : ∀ b a, μ (f b a) = μ b → f b a = b) :
    ∀ (l : List α) (b : β), μ (l.foldl f b) = μ b → l.foldl f b = b := by
  intro l
  induction l with
  | nil => intro b _; rfl
  | cons a t ih =>
    intro b h
    rw [List.foldl_cons] at h
    have h1 : μ b ≤ μ (f b a) := hle b a
    have h2 : μ (f b a) ≤ μ (t.foldl f (f b a)) := foldl_measure_le μ f hle t (f b a)
    have h3 : μ (f b a) = μ b := le_antisymm (by omega) h1
    have h4 : f b a = b := heq b a h3
    rw [List.foldl_cons, h4]
    rw [h4] at h
    exact ih b h

/-- C7: process_matches applies at most one update per canonical pair key — the
list of processed keys never repeats an entry — and on the concrete duplicated
dataset the pair is processed exactly once (one key, one history entry). -/
theorem C7_dedup_idempotence :
    (∀ (sys : RatingSystem) (rows : List MatchRow),
      ((sys.process_matches rows).2).Nodup) ∧
    ((initSystem 1500 32 0.3).process_matches dupRows).2 = [(1, ("A"), ("B"))] ∧
    ((initSystem 1500 32 0.3).process_matches dupRows).1.match_history.length = 1 := by
  refine ⟨?_, by decide, by decide⟩
  intro sys rows
  unfold RatingSystem.process_matches
  by_cases hemp : (cleanRows rows).isEmpty
  · rw [if_pos hemp]
    exact List.nodup_nil
  · rw [if_neg hemp]
    refine foldl_preserve
      (fun st : RatingSystem × List PairKey => st.2.Nodup) _ ?_ _ _ List.nodup_nil
    intro st m hst
    exact foldl_preserve (fun st2 : RatingSystem × List PairKey => st2.2.Nodup) _
      (fun st2 row hst2 => stepRow_nodup st2 _ row hst2) _ st hst

/-- C8: if processing yields zero valid pairs (no pair key was processed), the
rating store is exactly what it was before process_matches was called. -/
theorem C8_no_valid_pairs_store_untouched (sys : RatingSystem) (rows : List MatchRow)
    (h : (sys.process_matches rows).2 = []) :
    (sys.process_matches rows).1.player_ratings = sys.player_ratings := by
  suffices hs : sys.process_matches rows = (sys, []) by rw [hs]
  unfold RatingSystem.process_matches at h ⊢
  by_cases hemp : (cleanRows rows).isEmpty
  · rw [if_pos hemp]
  · rw [if_neg hemp] at h ⊢
    refine foldl_eq_of_measure
      (fun st : RatingSystem × List PairKey => st.2.length) _ ?_ ?_ _ _ ?_
    · intro st m
      exact foldl_measure_le (fun st2 : RatingSystem × List PairKey => st2.2.length) _
        (fun st2 row => stepRow_length_le st2 _ row) _ st
    · intro st m hm
      exact foldl_eq_of_measure (fun st2 : RatingSystem × List PairKey => st2.2.length) _
        (fun st2 row => stepRow_length_le st2 _ row)
        (fun st2 row hr => stepRow_eq_of_length st2 _ row hr) _ st hm
    · dsimp only
      rw [h]

/-- Witness for C8: the opponent-mismatch dataset produces zero valid pairs
and leaves the store of a fresh system untouched. -/
theorem C8_no_valid_pairs_store_untouched_witness :
    ((initSystem 1500 32 0.3).process_matches mismatchRows).2 = [] ∧
    ((initSystem 1500 32 0.3).process_matches mismatchRows).1.player_ratings
      = (initSystem 1500 32 0.3).player_ratings :=
  ⟨by decide,
   C8_no_valid_pairs_store_untouched (initSystem 1500 32 0.3) mismatchRows (by decide)⟩

/-- C2 amended: once the dedup, opponent-lookup and opponent-mismatch checks
have passed, the pair is skipped exactly when the code's one-sided test fires:
P's result is a win token and O's is not a loss token, or P's result is a loss
token and O's is not a win token. When that test is false — in particular
whenever P's own result is an unrecognized token — the rating update is
applied and the pair key is recorded. -/
theorem C2_contradiction_skip_exact (sys : RatingSystem) (processed : List PairKey)
    (group : List CleanRow) (row orow : CleanRow)
    (hmem : pairKey row ∉ processed)
    (hf : group.find? (fun r => r.name == row.opponent) = some orow)
    (hop : orow.opponent = row.name) :
    (resultContradiction row.result orow.result = true →
      stepRow ((sys, processed) : RatingSystem × List PairKey) group row
        = (sys, processed)) ∧
    (resultContradiction row.result orow.result = false →
      stepRow ((sys, processed) : RatingSystem × List PairKey) group row
        = ((sys.update_ratings row.name row.opponent row.result row.cards orow.cards).1,
           processed ++ [pairKey row])) := by
  constructor
  · intro hc
    simp [stepRow, hmem, hf, hop, hc]
  · intro hc
    simp [stepRow, hmem, hf, hop, hc]

/-- Witness for C2 at a concrete input: both results are win tokens, the
one-sided test fires, and the step leaves system and processed set unchanged. -/
theorem C2_contradiction_skip_exact_witness :
    stepRow ((initSystem 1500 32 0.3, []) : RatingSystem × List PairKey) contraGroup
        (⟨1, ("A"), ("B"), ("勝"), 17⟩ : CleanRow)
      = (initSystem 1500 32 0.3, []) :=
  (C2_contradiction_skip_exact (initSystem 1500 32 0.3) [] contraGroup
    (⟨1, ("A"), ("B"), ("勝"), 17⟩ : CleanRow) (⟨1, ("B"), ("A"), ("勝"), 15⟩ : CleanRow)
    (by decide) (by decide) (by decide)).1 (by decide)

/-- C2 counterexample: on nonComplementRows the results are not complements,
yet process_matches does not skip the pair — it records the pair key as
processed and applies exactly one rating update (one history entry). -/
theorem C2_counterexample_non_complement_updated :
    resultContradiction ("分") ("勝") = false ∧
    ((initSystem 1500 32 0.3).process_matches nonComplementRows).2 = [(1, ("A"), ("B"))] ∧
    ((initSystem 1500 32 0.3).process_matches nonComplementRows).1.match_history.length
      = 1 := by
  refine ⟨by decide, by decide, by decide⟩

/-- C1 counterexample: loading a checkpoint whose second row is malformed
reports the failure, but player X from the first row is now in the
previously-empty store: the store was modified by the failed load, so
processing does not proceed with a fresh empty store. -/
theorem C1_counterexample_partial_load :
    ((initSystem 1500 32 0.3).load_previous_ratings [goodRowX, badRowY]).2 = false ∧
    (((initSystem 1500 32 0.3).load_previous_ratings [goodRowX, badRowY]).1.player_ratings.map
        Prod.fst) = [("X")] := by
  refine ⟨by decide, by decide⟩

/-- C1 amended: on a malformed entry the load stops at that entry: every row
before the first malformed one remains applied to the store (no rollback), the
failure is reported (logged, with the caller continuing on the store as now
mutated), and the remaining rows are ignored. Only when the malformed entry is
the first row is the store left unmodified. -/
theorem C1_partial_checkpoint_load (sys : RatingSystem)
    (good : List CheckpointRow) (bad : CheckpointRow) (rest : List CheckpointRow)
    (hgood : ∀ r ∈ good, rowOk r = true) (hbad : rowOk bad = false) :
    sys.load_previous_ratings (good ++ bad :: rest)
      = (good.foldl applyCheckpointRow sys, false) := by
  revert sys hgood
  induction good with
  | nil =>
    intro sys _
    simp only [List.nil_append, List.foldl_nil]
    rcases bad with ⟨p, rat, w, l⟩
    rcases rat with _ | rv
    · rfl
    rcases w with _ | wv
    · rfl
    rcases l with _ | lv
    · rfl
    simp [rowOk] at hbad
  | cons r rs ih =>
    intro sys hgood
    have hr : rowOk r = true := hgood r (by simp)
    have hrs : ∀ x ∈ rs, rowOk x = true := fun x hx => hgood x (by simp [hx])
    rcases r with ⟨p, rat, w, l⟩
    rcases rat with _ | rv
    · simp [rowOk] at hr
    rcases w with _ | wv
    · simp [rowOk] at hr
    rcases l with _ | lv
    · simp [rowOk] at hr
    simp only [List.cons_append, List.foldl_cons]
    exact ih (applyCheckpointRow sys ⟨p, some rv, some wv, some lv⟩) hrs

/-- Witness for C1 at a concrete input: one good row, then one malformed row. -/
theorem C1_partial_checkpoint_load_witness :
    (initSystem 1500 32 0.3).load_previous_ratings ([goodRowX] ++ badRowY :: [])
      = ([goodRowX].foldl applyCheckpointRow (initSystem 1500 32 0.3), false) :=
  C1_partial_checkpoint_load (initSystem 1500 32 0.3) [goodRowX] badRowY []
    (by decide) (by decide)
